import Mathlib

/-!
Verification of the nfeloqb data-loading pipeline
(`src/nfeloqb/Resources/data_loader.py`, class `DataLoader`).

The pandas program is shallowly embedded: data frames become lists of
structures, column values that can be missing (NaN) become `Option`,
numeric columns become `ℚ` (exact arithmetic stands in for the float
columns pandas uses), and each method of `DataLoader` becomes a Lean
function.  Fallible stages (each wrapped in `try/except` in the source,
printing a diagnostic and returning `None`) are modelled by `Option`
inputs and outputs; an uncaught Python exception escaping `pull_data`
is modelled by `Except.error` carrying the orchestrator state at the
moment the exception is raised.

Pandas primitives are modelled as follows, each faithful to the
semantics of the call sites in the source:
* `Series.replace(dict)`        -> `replaceTeam` (exact-match lookup, absent keys pass through);
* `df.groupby(ks).head(1)`      -> `headPerGroup` (first row of each group in frame order; rows
  whose grouping key is missing belong to no group and are dropped, which at the call sites
  means dropping rows with a `none` key before grouping);
* `pd.merge(..., how='left')`   -> `leftJoin` (left order preserved, one output row per match,
  a single all-null-joined row when there is no match);
* `df.sort_values(by=[k1, k2])` -> `List.insertionSort` over a total preorder.  With a list of
  sort keys pandas computes the indexer with `numpy.lexsort`, which is stable, so a stable
  sort is the faithful model; missing keys sort last (`na_position='last'`);
* `groupby(ks).agg(sum)`        -> per-key summation; the distinct keys are enumerated in
  first-occurrence order (pandas orders the groups by key value; every claim below is about
  which rows the result contains, never about their order, so the enumeration order of the
  distinct keys is immaterial);
* `groupby('player_id').cumcount()` -> count of earlier rows with the same `player_id`;
* `Series.combine_first`        -> `Option.orElse` (keep the primary value when present).
-/

/-- Nine raw counting-stat columns (`stat_cols` in `DataLoader.__init__`).
Pandas holds them as numeric columns; they are embedded as exact rationals. -/
structure Stats where
  completions : ℚ
  attempts : ℚ
  passing_yards : ℚ
  passing_tds : ℚ
  interceptions : ℚ
  sacks : ℚ
  carries : ℚ
  rushing_yards : ℚ
  rushing_tds : ℚ
deriving DecidableEq

/-- Pointwise sum of two stat rows (one step of the `groupby(...).agg(sum)` in
`DataLoader.aggregate_team_stats`). -/
def addStats (a b : Stats) : Stats where
  completions := a.completions + b.completions
  attempts := a.attempts + b.attempts
  passing_yards := a.passing_yards + b.passing_yards
  passing_tds := a.passing_tds + b.passing_tds
  interceptions := a.interceptions + b.interceptions
  sacks := a.sacks + b.sacks
  carries := a.carries + b.carries
  rushing_yards := a.rushing_yards + b.rushing_yards
  rushing_tds := a.rushing_tds + b.rushing_tds

/-- The all-zero stat row, the empty sum. -/
def zeroStats : Stats := ⟨0, 0, 0, 0, 0, 0, 0, 0, 0⟩

/-- Column-wise sum of the stat columns over a group of rows. -/
def sumStats (l : List Stats) : Stats := l.foldl addStats zeroStats

/-- Raw row of the remote `player_stats.csv.gz` file as read by
`DataLoader.retrieve_player_stats`, before filtering and renaming
(`recent_team` is the original team column name). -/
structure RawStatRow where
  player_id : String
  player_name : String
  player_display_name : String
  position : String
  recent_team : String
  season : Nat
  week : Nat
  stats : Stats
deriving DecidableEq

/-- Output row of `DataLoader.retrieve_player_stats`: QB rows only, team code
standardized through `player_file_repl`, `recent_team` renamed to `team`. -/
structure StatRow where
  player_id : String
  player_name : String
  player_display_name : String
  position : String
  team : String
  season : Nat
  week : Nat
  stats : Stats
deriving DecidableEq

/-- Row of the remote `players.csv` metadata file as read by
`DataLoader.retrieve_player_meta`; the four draft/bio columns may be missing. -/
structure MetaRow where
  gsis_id : String
  first_name : String
  last_name : String
  birth_date : Option String
  rookie_year : Option ℚ
  entry_year : Option ℚ
  draft_number : Option ℚ
deriving DecidableEq

/-- Row of the local `missing_draft_data.csv` backfill table, after the rename
to `*_fill` column names in `add_missing_draft_data`. -/
structure BackfillRow where
  player_id : String
  rookie_year_fill : Option ℚ
  draft_number_fill : Option ℚ
  entry_year_fill : Option ℚ
  birth_date_fill : Option String
deriving DecidableEq

/-- Stat row after the left merge with deduplicated player metadata in
`DataLoader.retrieve_player_meta`: the joined bio columns are nullable, and
are all null for a player with no metadata match. -/
structure MetaMergedRow extends StatRow where
  first_name : Option String
  last_name : Option String
  birth_date : Option String
  rookie_year : Option ℚ
  entry_year : Option ℚ
  draft_number : Option ℚ
deriving DecidableEq

/-- Raw row of the remote `games.csv` schedule file as read by
`DataLoader.add_game_data`.  It carries its own `game_id` column, which the
code overwrites with a reconstructed id. -/
structure GameRawRow where
  game_id : String
  season : Nat
  week : Nat
  gameday : String
  home_team : String
  away_team : String
  home_qb_id : String
  home_qb_name : String
  away_qb_id : String
  away_qb_name : String
deriving DecidableEq

/-- Schedule row after team-code replacement and `game_id` reconstruction
(the table stored on the instance as `self.games`). -/
structure GameRow where
  game_id : String
  season : Nat
  week : Nat
  gameday : String
  home_team : String
  away_team : String
  home_qb_id : String
  home_qb_name : String
  away_qb_id : String
  away_qb_name : String
deriving DecidableEq

/-- One perspective row of the flattened schedule (`game_flat` in
`DataLoader.add_game_data`): each game contributes a home-as-team row and an
away-as-team row under this unified schema. -/
structure PerspRow where
  game_id : String
  gameday : String
  season : Nat
  week : Nat
  team : String
  opponent : String
  starter_id : String
  starter_name : String
  opponent_starter_id : String
  opponent_starter_name : String
deriving DecidableEq

/-- Game-context columns a player row gains from the game merge.  They come
from a single matched `PerspRow`, so they are all present or all missing
together; `Option GameCtx` captures exactly that. -/
structure GameCtx where
  game_id : String
  gameday : String
  opponent : String
  starter_id : String
  starter_name : String
  opponent_starter_id : String
  opponent_starter_name : String
deriving DecidableEq

/-- Player row after the left game merge in `DataLoader.add_game_data`:
`gctx = none` iff the row matched no flattened schedule row. -/
structure FullRow extends MetaMergedRow where
  gctx : Option GameCtx
deriving DecidableEq

/-- Grouping key of `DataLoader.aggregate_team_stats`:
`['game_id', 'season', 'week', 'gameday', team_field]`. -/
structure AggKey where
  game_id : String
  season : Nat
  week : Nat
  gameday : String
  team : String
deriving DecidableEq

/-- Output row of `DataLoader.aggregate_team_stats`: the five grouping
columns (with the grouping field renamed to `team`) plus summed stats. -/
structure TeamRow where
  game_id : String
  season : Nat
  week : Nat
  gameday : String
  team : String
  stats : Stats
deriving DecidableEq

/-- The three columns of `df_team` that `DataLoader.pull_data` selects for the
final left merge: `df_team[['game_id', 'team', 'team_VALUE']]`. -/
structure TeamValRow where
  game_id : String
  team : String
  team_VALUE : ℚ
deriving DecidableEq

/-- Output row of `DataLoader.format_top_passer`: the selected column list
plus the computed `start_number`. -/
structure TopRow where
  game_id : Option String
  season : Nat
  week : Nat
  gameday : Option String
  team : String
  opponent : Option String
  player_id : String
  player_name : String
  player_display_name : String
  start_number : Nat
  rookie_year : Option ℚ
  entry_year : Option ℚ
  draft_number : Option ℚ
  stats : Stats
deriving DecidableEq

/-- Final player-level model row (`self.model_df`): `format_top_passer`
columns with the stat columns dropped, plus `player_VALUE` and the joined
`team_VALUE` (null when the team merge found no match). -/
structure ModelRow where
  game_id : Option String
  season : Nat
  week : Nat
  gameday : Option String
  team : String
  opponent : Option String
  player_id : String
  player_name : String
  player_display_name : String
  start_number : Nat
  rookie_year : Option ℚ
  entry_year : Option ℚ
  draft_number : Option ℚ
  player_VALUE : ℚ
  team_VALUE : Option ℚ
deriving DecidableEq

/-- Orchestrator process state.  `DataLoader.__init__` initializes
`self.model_df = None` and `self.games_df = None` (the declared output
slots); the attribute `self.games` is first created inside
`DataLoader.add_game_data`, so it is modelled as an `Option` that starts
out `none`. -/
structure LoaderState where
  model_df : Option (List ModelRow)
  games_df : Option (List GameRow)
  games : Option (List GameRow)
deriving DecidableEq

/-- The state `DataLoader.__init__` sets up before calling `pull_data`. -/
def initState : LoaderState := ⟨none, none, none⟩

/-- The `player_file_repl` replacement dict of `DataLoader.__init__`. -/
def player_file_repl : List (String × String) := [("LA", "LAR"), ("LV", "OAK")]

/-- The `games_file_repl` replacement dict of `DataLoader.__init__`. -/
def games_file_repl : List (String × String) :=
  [("LA", "LAR"), ("LV", "OAK"), ("STL", "LAR"), ("SD", "LAC")]

/-- `Series.replace(repl)` applied to one team-code cell: exact-match lookup
in the dict, the input passes through unchanged when it is not a key. -/
def replaceTeam (repl : List (String × String)) (s : String) : String :=
  match repl.lookup s with
  | some v => v
  | none => s

/-- Python `str.zfill(w)` for the non-negative digit strings produced by
`astype(str)` on the integer `week` column: left-pad with zeros to width `w`. -/
def zfill (w : Nat) (s : String) : String :=
  if s.length ≥ w then s else String.mk (List.replicate (w - s.length) '0') ++ s

/-- `df.groupby(key).head(1)` on frames whose grouping key is always present:
keep the first row of each key group, in frame order. -/
def headPerGroup {α : Type} {K : Type} [DecidableEq K] (key : α → K) : List α → List α
  | [] => []
  | r :: rest => r :: headPerGroup key (rest.filter fun s => decide (key s ≠ key r))
termination_by l => l.length
decreasing_by simpa using Nat.lt_succ_of_le (List.length_filter_le _ _)

/-- `pd.merge(ls, rs, how='left')`: every left row is kept in order; a left
row with right matches produces one output row per match (right order), and a
left row with no match produces a single row whose joined columns are null
(the `none` passed to `mk`). -/
def leftJoin {α β γ : Type} (ls : List α) (rs : List β)
    (mtch : α → β → Bool) (mk : α → Option β → γ) : List γ :=
  ls.flatMap fun a =>
    match rs.filter (mtch a) with
    | [] => [mk a none]
    | bs => bs.map fun b => mk a (some b)

/-- First-best scan used to state what a stable sort followed by `head(1)`
selects: `firstBest le l` is the earliest element of `l` that is `le`-before
every other element of `l` (for a total preorder `le`). -/
def firstBest {α : Type} (le : α → α → Bool) : List α → Option α
  | [] => none
  | a :: l =>
    match firstBest le l with
    | none => some a
    | some b => if le a b then some a else some b

/-- Propositional form of a boolean comparison, for use with
`List.insertionSort`. -/
@[reducible] def brel {α : Type} (le : α → α → Bool) : α → α → Prop := fun a b => le a b = true

instance {α : Type} (le : α → α → Bool) : DecidableRel (brel le) :=
  fun a b => inferInstanceAs (Decidable (le a b = true))

/-- `DataLoader.retrieve_player_stats`: on a successful fetch, keep only
`position == 'QB'` rows, standardize `recent_team` through
`player_file_repl`, and rename it to `team`; on a failed fetch the stage
returns an absent result. -/
def retrieve_player_stats (src : Option (List RawStatRow)) : Option (List StatRow) :=
  src.map fun rows =>
    (rows.filter fun r => decide (r.position = "QB")).map fun r =>
      { player_id := r.player_id, player_name := r.player_name,
        player_display_name := r.player_display_name, position := r.position,
        team := replaceTeam player_file_repl r.recent_team,
        season := r.season, week := r.week, stats := r.stats }

/-- Nested helper `add_missing_draft_data` of `DataLoader.retrieve_player_meta`:
deduplicate the backfill table to one row per `player_id` (first occurrence),
left-join it by `player_id`, then for each of the four fields keep the primary
value when present and otherwise take the `_fill` value (`combine_first`),
dropping the `_fill` columns afterwards. -/
def add_missing_draft_data (missing : List BackfillRow) (df : List MetaMergedRow) :
    List MetaMergedRow :=
  leftJoin df (headPerGroup (fun b => b.player_id) missing)
    (fun a b => decide (b.player_id = a.player_id)) fun a ob =>
    { a with
      rookie_year := a.rookie_year.orElse fun _ => ob.bind fun b => b.rookie_year_fill,
      draft_number := a.draft_number.orElse fun _ => ob.bind fun b => b.draft_number_fill,
      entry_year := a.entry_year.orElse fun _ => ob.bind fun b => b.entry_year_fill,
      birth_date := a.birth_date.orElse fun _ => ob.bind fun b => b.birth_date_fill }

/-- `DataLoader.retrieve_player_meta`: on success, deduplicate the metadata
to one row per `gsis_id` (first occurrence), left-join the selected bio
columns onto the stats by `player_id`, then apply the draft-data backfill.
A failure reading either the metadata or the backfill file is caught by the
surrounding `try` and the stage returns an absent result. -/
def retrieve_player_meta (metaSrc : Option (List MetaRow))
    (backfillSrc : Option (List BackfillRow)) (df : List StatRow) :
    Option (List MetaMergedRow) :=
  match metaSrc, backfillSrc with
  | some meta, some missing =>
    some (add_missing_draft_data missing
      (leftJoin df (headPerGroup (fun m => m.gsis_id) meta)
        (fun a m => decide (m.gsis_id = a.player_id)) fun a om =>
          { toStatRow := a,
            first_name := om.map fun m => m.first_name,
            last_name := om.map fun m => m.last_name,
            birth_date := om.bind fun m => m.birth_date,
            rookie_year := om.bind fun m => m.rookie_year,
            entry_year := om.bind fun m => m.entry_year,
            draft_number := om.bind fun m => m.draft_number }))
  | _, _ => none

/-- Team-name replacement and `game_id` reconstruction of
`DataLoader.add_game_data`: normalize `home_team` and `away_team` through
`games_file_repl`, then overwrite `game_id` with
`season + '_' + week.zfill(2) + '_' + away_team + '_' + home_team` built
from the already-normalized team codes. -/
def processGames (raws : List GameRawRow) : List GameRow :=
  raws.map fun g =>
    let h := replaceTeam games_file_repl g.home_team
    let a := replaceTeam games_file_repl g.away_team
    { game_id := toString g.season ++ "_" ++ zfill 2 (toString g.week) ++ "_" ++ a ++ "_" ++ h,
      season := g.season, week := g.week, gameday := g.gameday,
      home_team := h, away_team := a,
      home_qb_id := g.home_qb_id, home_qb_name := g.home_qb_name,
      away_qb_id := g.away_qb_id, away_qb_name := g.away_qb_name }

/-- The `pd.concat` of the two renamed projections in `DataLoader.add_game_data`:
all home-perspective rows followed by all away-perspective rows. -/
def flattenGames (games : List GameRow) : List PerspRow :=
  (games.map fun g =>
    { game_id := g.game_id, gameday := g.gameday, season := g.season, week := g.week,
      team := g.home_team, opponent := g.away_team,
      starter_id := g.home_qb_id, starter_name := g.home_qb_name,
      opponent_starter_id := g.away_qb_id, opponent_starter_name := g.away_qb_name }) ++
  (games.map fun g =>
    { game_id := g.game_id, gameday := g.gameday, season := g.season, week := g.week,
      team := g.away_team, opponent := g.home_team,
      starter_id := g.away_qb_id, starter_name := g.away_qb_name,
      opponent_starter_id := g.home_qb_id, opponent_starter_name := g.home_qb_name })

/-- The left merge of `DataLoader.add_game_data`:
`pd.merge(df, game_flat, on=['season', 'week', 'team'], how='left')`. -/
def merge_game_flat (df : List MetaMergedRow) (flat : List PerspRow) : List FullRow :=
  leftJoin df flat
    (fun a p => decide (p.season = a.season) && decide (p.week = a.week) &&
      decide (p.team = a.team))
    fun a op =>
      { toMetaMergedRow := a,
        gctx := op.map fun p =>
          { game_id := p.game_id, gameday := p.gameday, opponent := p.opponent,
            starter_id := p.starter_id, starter_name := p.starter_name,
            opponent_starter_id := p.opponent_starter_id,
            opponent_starter_name := p.opponent_starter_name } }

/-- `DataLoader.add_game_data`, including its effect on instance state.  When
the schedule fetch succeeds the method assigns `self.games` *before* the
merge, so that assignment persists even when the merge then fails (it does
fail, by raising inside the `try`, whenever the incoming `df` is absent); when
the fetch itself fails nothing is assigned.  Either failure is caught and the
stage returns an absent result. -/
def add_game_data (gameSrc : Option (List GameRawRow))
    (df : Option (List MetaMergedRow)) (st : LoaderState) :
    LoaderState × Option (List FullRow) :=
  match gameSrc with
  | none => (st, none)
  | some raws =>
    let game := processGames raws
    let st1 := { st with games := some game }
    match df with
    | none => (st1, none)
    | some rows => (st1, some (merge_game_flat rows (flattenGames game)))

/-- Grouping key of a player row for `aggregate_team_stats`: present only
when every grouping column is present (pandas `groupby` drops rows whose key
contains a missing value). -/
def aggKey (teamField : FullRow → Option String) (r : FullRow) : Option AggKey :=
  match r.gctx, teamField r with
  | some g, some t => some ⟨g.game_id, r.season, r.week, g.gameday, t⟩
  | _, _ => none

/-- The `team_field='team'` grouping used by `pull_data`. -/
def teamOf : FullRow → Option String := fun r => some r.team

/-- `DataLoader.aggregate_team_stats`: group by
`['game_id', 'season', 'week', 'gameday', team_field]`, sum the nine stat
columns over each group, and rename the grouping field to `team`. -/
def aggregate_team_stats (teamField : FullRow → Option String) (df : List FullRow) :
    List TeamRow :=
  (headPerGroup (fun k => k) (df.filterMap (aggKey teamField))).map fun k =>
    { game_id := k.game_id, season := k.season, week := k.week,
      gameday := k.gameday, team := k.team,
      stats := sumStats
        ((df.filter fun r => decide (aggKey teamField r = some k)).map fun r => r.stats) }

/-- The five key columns of an aggregated team row, as one value. -/
def teamRowKey (t : TeamRow) : AggKey :=
  ⟨t.game_id, t.season, t.week, t.gameday, t.team⟩

/-- The `game_id` sort/grouping key of a merged player row. -/
def gid? (r : FullRow) : Option String := r.gctx.map fun g => g.game_id

/-- Strict comparison on the nullable `game_id` column: missing keys sort
after every present key (`na_position='last'`).  Present keys compare as
character lists, which is the lexicographic string order. -/
def optStrLt : Option String → Option String → Bool
  | some s, some t => decide (s.data < t.data)
  | some _, none => true
  | none, _ => false

/-- The row comparison realized by
`sort_values(by=['game_id', 'attempts'], ascending=[True, False])`:
`game_id` ascending with missing values last, then `attempts` descending. -/
def isoLe (a b : FullRow) : Bool :=
  optStrLt (gid? a) (gid? b) ||
    (decide (gid? a = gid? b) && decide (b.stats.attempts ≤ a.stats.attempts))

/-- The `(game_id, team)` grouping key of `iso_top_passer`. -/
def isoKey (r : FullRow) : Option String × String := (gid? r, r.team)

/-- Comparison that stands for `attempts` descending on rows of one group,
used to state which row the top-passer isolation keeps. -/
def attemptsGe (a b : FullRow) : Bool := decide (b.stats.attempts ≤ a.stats.attempts)

/-- `DataLoader.iso_top_passer`: stable-sort by `game_id` ascending and
`attempts` descending, then `groupby(['game_id', 'team']).head(1)`.  Rows
with a missing `game_id` belong to no group and are dropped by the
`groupby`. -/
def iso_top_passer (df : List FullRow) : List FullRow :=
  headPerGroup isoKey
    ((List.insertionSort (brel isoLe) df).filter fun r => (gid? r).isSome)

/-- `DataLoader.format_top_passer`: add `start_number` (one plus the
`groupby('player_id').cumcount()`, i.e. the running count of earlier rows of
the same player) and keep only the listed columns. -/
def format_top_passer (df : List FullRow) : List TopRow :=
  df.enum.map fun ir =>
    { game_id := gid? ir.2, season := ir.2.season, week := ir.2.week,
      gameday := ir.2.gctx.map fun g => g.gameday, team := ir.2.team,
      opponent := ir.2.gctx.map fun g => g.opponent,
      player_id := ir.2.player_id, player_name := ir.2.player_name,
      player_display_name := ir.2.player_display_name,
      start_number :=
        ((df.take ir.1).filter fun s => decide (s.player_id = ir.2.player_id)).length + 1,
      rookie_year := ir.2.rookie_year, entry_year := ir.2.entry_year,
      draft_number := ir.2.draft_number, stats := ir.2.stats }

/-- `DataLoader.calculate_raw_value`: the fixed-coefficient linear value
formula, applied unchanged at player grain and team grain. -/
def calculate_raw_value (s : Stats) : ℚ :=
  -2.2 * s.attempts +
  3.7 * s.completions +
  s.passing_yards / 5 +
  11.3 * s.passing_tds -
  14.1 * s.interceptions -
  8 * s.sacks -
  1.1 * s.carries +
  0.6 * s.rushing_yards +
  15.9 * s.rushing_tds

/-- `DataLoader.pull_data`, the orchestrator.  Each external fetch is a
parameter (`none` models an unreachable source, and the local backfill file
is a source of `retrieve_player_meta`).  If the stats stage fails the
`while df is not None` loop body never runs and the method returns normally.
Otherwise the loop body runs once: the meta stage and the game stage each
pass an absent result along on failure, and when `add_game_data` hands back
an absent frame the call `self.aggregate_team_stats(None)` raises an
uncaught `AttributeError` (`Except.error`, carrying the state at the moment
of the raise).  On full success the loop body computes the team table and
its value, isolates and formats the top passers, computes the player value,
joins the team value back on, and stores the result in `self.model_df`. -/
def pull_data (statsSrc : Option (List RawStatRow)) (metaSrc : Option (List MetaRow))
    (backfillSrc : Option (List BackfillRow)) (gameSrc : Option (List GameRawRow))
    (st : LoaderState) : Except LoaderState LoaderState :=
  match retrieve_player_stats statsSrc with
  | none => Except.ok st
  | some df0 =>
    let df1 := retrieve_player_meta metaSrc backfillSrc df0
    let (st1, df2) := add_game_data gameSrc df1 st
    match df2 with
    | none => Except.error st1
    | some full =>
      let df_team := aggregate_team_stats teamOf full
      let teamVals := df_team.map fun t =>
        TeamValRow.mk t.game_id t.team (calculate_raw_value t.stats)
      let top := format_top_passer (iso_top_passer full)
      let model := leftJoin top teamVals
        (fun a t => decide (a.game_id = some t.game_id) && decide (a.team = t.team))
        fun a ot =>
          { game_id := a.game_id, season := a.season, week := a.week,
            gameday := a.gameday, team := a.team, opponent := a.opponent,
            player_id := a.player_id, player_name := a.player_name,
            player_display_name := a.player_display_name,
            start_number := a.start_number, rookie_year := a.rookie_year,
            entry_year := a.entry_year, draft_number := a.draft_number,
            player_VALUE := calculate_raw_value a.stats,
            team_VALUE := ot.map fun t => t.team_VALUE }
      Except.ok { st1 with model_df := some model }

/-- Projection of a finished run onto the orchestrator state it leaves
behind, whether the run returned normally or raised. -/
def stateOf : Except LoaderState LoaderState → LoaderState
  | Except.ok s => s
  | Except.error s => s

/-- Whether a run returned without raising. -/
def ranClean : Except LoaderState LoaderState → Bool
  | Except.ok _ => true
  | Except.error _ => false

/-! ### Concrete inputs evaluated by the witness and counterexample theorems -/

/-- Stat line used by witnesses; also the concrete stat line of the value
formula test (completions 20, attempts 30, 250 yards, 2 TD, 1 INT, 3 sacks,
3 carries, 10 rushing yards, 0 rushing TD). -/
def wStats1 : Stats := ⟨20, 30, 250, 2, 1, 3, 3, 10, 0⟩

/-- A second stat line with the same attempts (30), for the tie-break witness. -/
def wStats2 : Stats := ⟨15, 30, 180, 1, 0, 2, 2, 5, 1⟩

/-- Game context shared by the witness rows. -/
def wCtxA : GameCtx := ⟨"2023_01_B_A", "2023-09-10", "B", "q2", "Away QB", "q1", "Home QB"⟩

/-- First witness player row (team A, 30 attempts). -/
def wFullRow1 : FullRow :=
  { player_id := "p1", player_name := "P.One", player_display_name := "Player One",
    position := "QB", team := "A", season := 2023, week := 1, stats := wStats1,
    first_name := some "Player", last_name := some "One", birth_date := none,
    rookie_year := some 2020, entry_year := some 2020, draft_number := some 7,
    gctx := some wCtxA }

/-- Second witness player row: same game and team, also 30 attempts, appearing
second in the input order. -/
def wFullRow2 : FullRow :=
  { wFullRow1 with player_id := "p2", player_name := "P.Two", stats := wStats2 }

/-- A player row with no game match (`gctx = none`). -/
def wFullRowNull : FullRow :=
  { wFullRow1 with player_id := "p3", player_name := "P.Three", gctx := none }

/-- Raw stat row corresponding to `wFullRow1` before any processing. -/
def wRawStat1 : RawStatRow :=
  ⟨"p1", "P.One", "Player One", "QB", "A", 2023, 1, wStats1⟩

/-- Concrete raw schedule row: team A hosts team B in week 1 of 2023. -/
def wGameRaw1 : GameRawRow :=
  ⟨"raw_id", 2023, 1, "2023-09-10", "A", "B", "q1", "Home QB", "q2", "Away QB"⟩

/-- Raw schedule row whose home team is the raw code `LV` and whose raw
`game_id` still spells `LV`. -/
def wGameRawLV : GameRawRow :=
  ⟨"2023_01_CHI_LV", 2023, 1, "2023-09-10", "LV", "CHI", "h1", "HQB", "a1", "AQB"⟩

/-- A lone perspective row matching `wFullRow1` by season, week and team. -/
def wPersp1 : PerspRow :=
  ⟨"2023_01_B_A", "2023-09-10", 2023, 1, "A", "B", "q1", "Home QB", "q2", "Away QB"⟩

/-- The aggregation key of the witness rows. -/
def wKeyA : AggKey := ⟨"2023_01_B_A", 2023, 1, "2023-09-10", "A"⟩

/-- Bio row with a missing draft number. -/
def wBioNull : MetaMergedRow :=
  { wFullRow1.toMetaMergedRow with draft_number := none }

/-- Bio row whose draft number is already 3. -/
def wBio3 : MetaMergedRow :=
  { wFullRow1.toMetaMergedRow with draft_number := some 3 }

/-- Backfill row carrying draft number 7 for player p1. -/
def wBf7 : BackfillRow := ⟨"p1", some 2020, some 7, some 2020, some "1998-01-01"⟩

/-- Backfill row carrying draft number 9 for player p1. -/
def wBf9 : BackfillRow := ⟨"p1", some 2020, some 9, some 2020, some "1998-01-01"⟩

/-! ### Generic lemmas about the pandas-primitive models -/

theorem take_one_eq_head_toList {α : Type} (l : List α) : l.take 1 = l.head?.toList := by
  cases l <;> rfl

theorem find?_eq_head_filter {α : Type} (p : α → Bool) (l : List α) :
    l.find? p = (l.filter p).head? := by
  induction l with
  | nil => rfl
  | cons a l ih =>
    by_cases h : p a
    · simp [List.find?, List.filter, h]
    · rw [List.find?_cons_of_neg _ h, List.filter_cons_of_neg h, ih]

theorem mem_of_mem_headPerGroup {α K : Type} [DecidableEq K] (key : α → K)
    (l : List α) (x : α) (hx : x ∈ headPerGroup key l) : x ∈ l := by
  induction l using headPerGroup.induct key with
  | case1 => rw [headPerGroup] at hx; exact absurd hx (List.not_mem_nil x)
  | case2 r rest ih =>
    rw [headPerGroup] at hx
    rcases List.mem_cons.mp hx with h | h
    · exact h ▸ List.mem_cons_self _ _
    · exact List.mem_cons_of_mem _ (List.mem_of_mem_filter (ih h))


theorem headPerGroup_filter {α K : Type} [DecidableEq K] (key : α → K)
    (l : List α) (k : K) :
    (headPerGroup key l).filter (fun x => decide (key x = k)) =
      (l.filter (fun x => decide (key x = k))).take 1 := by
  induction l using headPerGroup.induct key with
  | case1 => rw [headPerGroup]; rfl
  | case2 r rest ih =>
    rw [headPerGroup]
    by_cases hr : key r = k
    · have hempty :
          (headPerGroup key (rest.filter fun s => decide (key s ≠ key r))).filter
            (fun x => decide (key x = k)) = [] := by
        rw [List.filter_eq_nil_iff]
        intro x hx
        have hx1 := mem_of_mem_headPerGroup _ _ _ hx
        have hx2 : key x ≠ key r := by
          simpa using (List.mem_filter.mp hx1).2
        simp only [decide_eq_true_eq]
        rw [hr] at hx2
        exact hx2
      rw [List.filter_cons_of_pos (by simpa using hr), hempty,
        List.filter_cons_of_pos (by simpa using hr)]
      rfl
    · have hsub :
          (rest.filter fun s => decide (key s ≠ key r)).filter
            (fun x => decide (key x = k)) =
          rest.filter (fun x => decide (key x = k)) := by
        rw [List.filter_filter]
        apply List.filter_congr
        intro x _
        by_cases hx : key x = k
        · have hkr : ¬(k = key r) := fun hcon => hr hcon.symm
          simp [hx, hkr]
        · simp [hx]
      rw [List.filter_cons_of_neg (by simpa using hr), ih, hsub,
        List.filter_cons_of_neg (by simpa using hr)]

theorem headPerGroup_find? {α K : Type} [DecidableEq K] (key : α → K)
    (l : List α) (k : K) :
    (headPerGroup key l).find? (fun x => decide (key x = k)) =
      l.find? (fun x => decide (key x = k)) := by
  rw [find?_eq_head_filter, find?_eq_head_filter, headPerGroup_filter,
    take_one_eq_head_toList]
  cases (l.filter fun x => decide (key x = k)).head? <;> rfl

theorem headPerGroup_filter_length_le_one {α K : Type} [DecidableEq K] (key : α → K)
    (l : List α) (k : K) :
    ((headPerGroup key l).filter (fun x => decide (key x = k))).length ≤ 1 := by
  rw [headPerGroup_filter]
  simp [List.length_take_le]

theorem leftJoin_of_unique {α β γ : Type} (ls : List α) (rs : List β)
    (mtch : α → β → Bool) (mk : α → Option β → γ)
    (h : ∀ a, ((rs.filter (mtch a)).length ≤ 1)) :
    leftJoin ls rs mtch mk = ls.map fun a => mk a ((rs.filter (mtch a)).head?) := by
  unfold leftJoin
  induction ls with
  | nil => rfl
  | cons a ls ih =>
    rw [List.flatMap_cons, List.map_cons, ih]
    have ha := h a
    rcases hfa : rs.filter (mtch a) with _ | ⟨b, bs⟩
    · rfl
    · rw [hfa] at ha
      simp only [List.length_cons] at ha
      have hbs : bs = [] := List.eq_nil_of_length_eq_zero (by omega)
      subst hbs
      rfl

theorem leftJoin_length_of_unique {α β γ : Type} (ls : List α) (rs : List β)
    (mtch : α → β → Bool) (mk : α → Option β → γ)
    (h : ∀ a, ((rs.filter (mtch a)).length ≤ 1)) :
    (leftJoin ls rs mtch mk).length = ls.length := by
  rw [leftJoin_of_unique ls rs mtch mk h, List.length_map]

theorem firstBest_eq_none {α : Type} (le : α → α → Bool) (l : List α) :
    firstBest le l = none ↔ l = [] := by
  cases l with
  | nil => simp [firstBest]
  | cons a l =>
    simp only [firstBest]
    constructor
    · intro h
      rcases hfb : firstBest le l with _ | b <;> rw [hfb] at h
      · simp at h
      · by_cases hab : le a b = true <;> simp [hab] at h
    · intro h
      exact absurd h (List.cons_ne_nil a l)

theorem firstBest_mem {α : Type} (le : α → α → Bool) (l : List α) :
    ∀ r, firstBest le l = some r → r ∈ l := by
  induction l with
  | nil => intro r h; simp [firstBest] at h
  | cons a l ih =>
    intro r h
    rw [firstBest] at h
    split at h
    · have ha : a = r := Option.some.inj h
      exact ha ▸ List.mem_cons_self _ _
    · rename_i b hfb
      by_cases hab : le a b = true
      · rw [if_pos hab] at h
        have ha : a = r := Option.some.inj h
        exact ha ▸ List.mem_cons_self _ _
      · rw [if_neg hab] at h
        have hb : b = r := Option.some.inj h
        exact List.mem_cons_of_mem _ (ih r (hb ▸ hfb))

theorem firstBest_le_all {α : Type} (le : α → α → Bool)
    (htot : ∀ a b, le a b = true ∨ le b a = true)
    (htrans : ∀ a b c, le a b = true → le b c = true → le a c = true)
    (l : List α) :
    ∀ r, firstBest le l = some r → ∀ s ∈ l, le r s = true := by
  have hrefl : ∀ x : α, le x x = true := fun x => (htot x x).elim id id
  induction l with
  | nil => intro r h; simp [firstBest] at h
  | cons a l ih =>
    intro r h
    rw [firstBest] at h
    split at h
    · rename_i hfb
      have hl : l = [] := (firstBest_eq_none le l).mp hfb
      have ha : a = r := Option.some.inj h
      subst ha
      subst hl
      intro s hs
      rcases List.mem_cons.mp hs with h1 | h1
      · rw [h1]; exact hrefl a
      · exact absurd h1 (List.not_mem_nil s)
    · rename_i b hfb
      by_cases hab : le a b = true
      · rw [if_pos hab] at h
        have ha : a = r := Option.some.inj h
        subst ha
        intro s hs
        rcases List.mem_cons.mp hs with h1 | h1
        · rw [h1]; exact hrefl a
        · exact htrans a b s hab (ih b hfb s h1)
      · rw [if_neg hab] at h
        have hb : b = r := Option.some.inj h
        subst hb
        intro s hs
        rcases List.mem_cons.mp hs with h1 | h1
        · rw [h1]; exact (htot a b).resolve_left hab
        · exact ih b hfb s h1

theorem firstBest_earliest {α : Type} (le : α → α → Bool) (pre : List α) :
    ∀ (l : List α) (r s : α) (post : List α), firstBest le l = some r →
      l = pre ++ s :: post → le s r = true → r ∈ pre ∨ r = s := by
  induction pre with
  | nil =>
    intro l r s post h hl hle
    subst hl
    rw [List.nil_append, firstBest] at h
    split at h
    · exact Or.inr (Option.some.inj h).symm
    · rename_i b hfb
      by_cases hsb : le s b = true
      · rw [if_pos hsb] at h
        exact Or.inr (Option.some.inj h).symm
      · rw [if_neg hsb] at h
        have hb : b = r := Option.some.inj h
        subst hb
        exact absurd hle hsb
  | cons a pre ih =>
    intro l r s post h hl hle
    subst hl
    rw [List.cons_append, firstBest] at h
    split at h
    · rename_i hfb
      exact absurd ((firstBest_eq_none le _).mp hfb) (by simp)
    · rename_i b hfb
      by_cases hab : le a b = true
      · rw [if_pos hab] at h
        have ha : a = r := Option.some.inj h
        subst ha
        exact Or.inl (List.mem_cons_self _ _)
      · rw [if_neg hab] at h
        have hb : b = r := Option.some.inj h
        subst hb
        rcases ih _ b s post hfb rfl hle with h1 | h1
        · exact Or.inl (List.mem_cons_of_mem _ h1)
        · exact Or.inr h1

theorem firstBest_congr {α : Type} (le1 le2 : α → α → Bool) (l : List α)
    (h : ∀ a ∈ l, ∀ b ∈ l, le1 a b = le2 a b) :
    firstBest le1 l = firstBest le2 l := by
  induction l with
  | nil => rfl
  | cons a l ih =>
    have hsub : ∀ x ∈ l, ∀ y ∈ l, le1 x y = le2 x y := fun x hx y hy =>
      h x (List.mem_cons_of_mem _ hx) y (List.mem_cons_of_mem _ hy)
    rw [firstBest, firstBest, ih hsub]
    cases hfb : firstBest le2 l with
    | none => rfl
    | some b =>
      have hb : b ∈ l := firstBest_mem le2 l b hfb
      show (if le1 a b = true then some a else some b) =
        (if le2 a b = true then some a else some b)
      have he := h a (List.mem_cons_self _ _) b (List.mem_cons_of_mem _ hb)
      by_cases h1 : le1 a b = true
      · rw [if_pos h1, if_pos (he ▸ h1)]
      · rw [if_neg h1, if_neg (he ▸ h1)]

/-! ### The sort comparison of iso_top_passer is a total preorder -/

theorem strData_lt_iff (s t : String) : s.data < t.data ↔ s < t := by
  rw [String.lt_iff_toList_lt]
  exact Iff.rfl

theorem optStrLt_trans {x y z : Option String} (h1 : optStrLt x y = true)
    (h2 : optStrLt y z = true) : optStrLt x z = true := by
  cases x with
  | none => simp [optStrLt] at h1
  | some s =>
    cases y with
    | none => simp [optStrLt] at h2
    | some t =>
      cases z with
      | none => rfl
      | some u =>
        simp only [optStrLt, decide_eq_true_eq, strData_lt_iff] at h1 h2 ⊢
        exact lt_trans h1 h2

theorem optStrLt_or_of_ne {x y : Option String} (h : x ≠ y) :
    optStrLt x y = true ∨ optStrLt y x = true := by
  cases x with
  | none =>
    cases y with
    | none => exact absurd rfl h
    | some t => exact Or.inr rfl
  | some s =>
    cases y with
    | none => exact Or.inl rfl
    | some t =>
      have hne : s ≠ t := fun hc => h (by rw [hc])
      rcases lt_or_gt_of_ne hne with hlt | hgt
      · refine Or.inl ?_
        simp only [optStrLt, decide_eq_true_eq, strData_lt_iff]
        exact hlt
      · refine Or.inr ?_
        simp only [optStrLt, decide_eq_true_eq, strData_lt_iff]
        exact hgt

theorem optStrLt_ne {x y : Option String} (h : optStrLt x y = true) : x ≠ y := by
  cases x with
  | none => simp [optStrLt] at h
  | some s =>
    cases y with
    | none => simp
    | some t =>
      simp only [optStrLt, decide_eq_true_eq, strData_lt_iff] at h
      simpa using ne_of_lt h

theorem isoLe_total (a b : FullRow) : isoLe a b = true ∨ isoLe b a = true := by
  by_cases h : gid? a = gid? b
  · rcases le_total b.stats.attempts a.stats.attempts with hle | hle
    · exact Or.inl (by simp [isoLe, h, hle])
    · exact Or.inr (by simp [isoLe, h.symm, hle])
  · rcases optStrLt_or_of_ne h with hlt | hlt
    · exact Or.inl (by simp [isoLe, hlt])
    · exact Or.inr (by simp [isoLe, hlt])

theorem isoLe_trans (a b c : FullRow) (h1 : isoLe a b = true) (h2 : isoLe b c = true) :
    isoLe a c = true := by
  simp only [isoLe, Bool.or_eq_true, Bool.and_eq_true, decide_eq_true_eq] at h1 h2 ⊢
  rcases h1 with h1 | ⟨h1e, h1a⟩
  · rcases h2 with h2 | ⟨h2e, h2a⟩
    · exact Or.inl (optStrLt_trans h1 h2)
    · exact Or.inl (h2e ▸ h1)
  · rcases h2 with h2 | ⟨h2e, h2a⟩
    · exact Or.inl (h1e ▸ h2)
    · exact Or.inr ⟨h1e.trans h2e, le_trans h2a h1a⟩

/-! ### Stable sort lemmas: insertion sort commutes with filtering, and its
head is the earliest best element -/

theorem orderedInsert_of_forall_le {α : Type} (le : α → α → Bool) (a : α) (l : List α)
    (h : ∀ y ∈ l, le a y = true) :
    List.orderedInsert (brel le) a l = a :: l := by
  cases l with
  | nil => rfl
  | cons y l =>
    rw [List.orderedInsert, if_pos (h y (List.mem_cons_self _ _))]

theorem filter_orderedInsert {α : Type} (le : α → α → Bool)
    (htrans : ∀ a b c, le a b = true → le b c = true → le a c = true)
    (p : α → Bool) (a : α) (l : List α) (hl : List.Sorted (brel le) l) :
    (List.orderedInsert (brel le) a l).filter p =
      if p a then List.orderedInsert (brel le) a (l.filter p) else l.filter p := by
  induction l with
  | nil =>
    by_cases pa : p a <;> simp [List.orderedInsert, pa, List.filter]
  | cons b l ih =>
    have hbl : ∀ y ∈ l, le b y = true := fun y hy => (List.sorted_cons.mp hl).1 y hy
    have hl2 : List.Sorted (brel le) l := (List.sorted_cons.mp hl).2
    by_cases hab : le a b = true
    · rw [List.orderedInsert, if_pos hab]
      by_cases pa : p a
      · rw [List.filter_cons_of_pos pa, if_pos pa,
          orderedInsert_of_forall_le le a ((b :: l).filter p)]
        intro y hy
        rcases List.mem_cons.mp (List.mem_of_mem_filter hy) with h1 | h1
        · exact h1 ▸ hab
        · exact htrans a b y hab (hbl y h1)
      · rw [List.filter_cons_of_neg pa, if_neg pa]
    · rw [List.orderedInsert, if_neg hab]
      by_cases pb : p b
      · rw [List.filter_cons_of_pos pb, ih hl2]
        by_cases pa : p a
        · rw [if_pos pa, if_pos pa, List.filter_cons_of_pos pb,
            List.orderedInsert, if_neg hab]
        · rw [if_neg pa, if_neg pa, List.filter_cons_of_pos pb]
      · rw [List.filter_cons_of_neg pb, ih hl2]
        by_cases pa : p a
        · rw [if_pos pa, if_pos pa, List.filter_cons_of_neg pb]
        · rw [if_neg pa, if_neg pa, List.filter_cons_of_neg pb]

theorem filter_insertionSort {α : Type} (le : α → α → Bool)
    (htot : ∀ a b, le a b = true ∨ le b a = true)
    (htrans : ∀ a b c, le a b = true → le b c = true → le a c = true)
    (p : α → Bool) (l : List α) :
    (List.insertionSort (brel le) l).filter p = List.insertionSort (brel le) (l.filter p) := by
  haveI : IsTotal α (brel le) := ⟨fun a b => htot a b⟩
  haveI : IsTrans α (brel le) := ⟨fun a b c => htrans a b c⟩
  induction l with
  | nil => rfl
  | cons a l ih =>
    rw [List.insertionSort,
      filter_orderedInsert le htrans p a _ (List.sorted_insertionSort (brel le) l), ih]
    by_cases pa : p a
    · rw [if_pos pa, List.filter_cons_of_pos pa, List.insertionSort]
    · rw [if_neg pa, List.filter_cons_of_neg pa]

theorem head_insertionSort_eq_firstBest {α : Type} (le : α → α → Bool) (l : List α) :
    (List.insertionSort (brel le) l).head? = firstBest le l := by
  induction l with
  | nil => rfl
  | cons a l ih =>
    rw [List.insertionSort, firstBest, ← ih]
    cases hs : List.insertionSort (brel le) l with
    | nil => rfl
    | cons b t =>
      rw [List.orderedInsert]
      by_cases hab : le a b = true
      · rw [if_pos hab]
        show some a = (if le a b = true then some a else some b)
        rw [if_pos hab]
      · rw [if_neg hab]
        show some b = (if le a b = true then some a else some b)
        rw [if_neg hab]

theorem optStrLt_irrefl (x : Option String) : optStrLt x x = false := by
  cases x with
  | none => rfl
  | some s =>
    simp only [optStrLt, decide_eq_false_iff_not, strData_lt_iff]
    exact lt_irrefl s

theorem attemptsGe_total (a b : FullRow) : attemptsGe a b = true ∨ attemptsGe b a = true := by
  rcases le_total b.stats.attempts a.stats.attempts with h | h
  · exact Or.inl (by simpa [attemptsGe] using h)
  · exact Or.inr (by simpa [attemptsGe] using h)

theorem attemptsGe_trans (a b c : FullRow) (h1 : attemptsGe a b = true)
    (h2 : attemptsGe b c = true) : attemptsGe a c = true := by
  simp only [attemptsGe, decide_eq_true_eq] at h1 h2 ⊢
  exact le_trans h2 h1

theorem isoLe_eq_attemptsGe_of_same_gid (gid : String) (a b : FullRow)
    (ha : gid? a = some gid) (hb : gid? b = some gid) : isoLe a b = attemptsGe a b := by
  rw [isoLe, ha, hb, optStrLt_irrefl]
  simp [attemptsGe]

/-- C4: for every player-row table, top-passer isolation keeps exactly one row
per `(game_id, team)` group, namely a row of maximal `attempts` within the
group that is the earliest-encountered row in the original input order among
rows tied at that maximum.  (`firstBest attemptsGe` on the group, read in the
original order, is exactly that row; conjuncts two to four spell its
properties out.) -/
theorem iso_top_passer_selects_first_max (df : List FullRow) (gid team : String) (r : FullRow)
    (h : firstBest attemptsGe (df.filter fun x => decide (isoKey x = (some gid, team))) =
      some r) :
    ((iso_top_passer df).filter fun x => decide (isoKey x = (some gid, team))) = [r] ∧
      r ∈ (df.filter fun x => decide (isoKey x = (some gid, team))) ∧
      (∀ s ∈ (df.filter fun x => decide (isoKey x = (some gid, team))),
        s.stats.attempts ≤ r.stats.attempts) ∧
      (∀ pre s post,
        (df.filter fun x => decide (isoKey x = (some gid, team))) = pre ++ s :: post →
        r.stats.attempts ≤ s.stats.attempts → r ∈ pre ∨ r = s) := by
  have hgidmem : ∀ x : FullRow, decide (isoKey x = (some gid, team)) = true →
      gid? x = some gid := by
    intro x hx
    simp only [decide_eq_true_eq] at hx
    exact congrArg Prod.fst hx
  have hmain :
      ((iso_top_passer df).filter fun x => decide (isoKey x = (some gid, team))) =
        (firstBest attemptsGe
          (df.filter fun x => decide (isoKey x = (some gid, team)))).toList := by
    rw [iso_top_passer, headPerGroup_filter isoKey _ ((some gid, team)),
      List.filter_filter]
    have hstep :
        (List.insertionSort (brel isoLe) df).filter
          (fun a => decide (isoKey a = (some gid, team)) && (gid? a).isSome) =
        (List.insertionSort (brel isoLe) df).filter
          (fun a => decide (isoKey a = (some gid, team))) := by
      apply List.filter_congr
      intro x _
      by_cases hx : isoKey x = (some gid, team)
      · have h1 : gid? x = some gid := congrArg Prod.fst hx
        simp [hx, h1]
      · simp [hx]
    rw [hstep, filter_insertionSort isoLe isoLe_total isoLe_trans,
      take_one_eq_head_toList, head_insertionSort_eq_firstBest,
      firstBest_congr isoLe attemptsGe _ ?hc]
    case hc =>
      intro a ha b hb
      exact isoLe_eq_attemptsGe_of_same_gid gid a b
        (hgidmem a (List.mem_filter.mp ha).2) (hgidmem b (List.mem_filter.mp hb).2)
  refine ⟨by rw [hmain, h]; rfl, firstBest_mem attemptsGe _ r h, ?_, ?_⟩
  · intro s hs
    have hle := firstBest_le_all attemptsGe attemptsGe_total attemptsGe_trans _ r h s hs
    simpa [attemptsGe] using hle
  · intro pre s post hsp hatt
    exact firstBest_earliest attemptsGe pre _ r s post h hsp
      (by simpa [attemptsGe] using hatt)

/-- Witness for C4 at a concrete tie: two rows of the same game and team with
30 attempts each; the earliest-encountered of the two is selected. -/
theorem iso_top_passer_selects_first_max_witness :
    firstBest attemptsGe ([wFullRow1, wFullRow2].filter fun x =>
        decide (isoKey x = (some "2023_01_B_A", "A"))) = some wFullRow1 ∧
    ((iso_top_passer [wFullRow1, wFullRow2]).filter fun x =>
        decide (isoKey x = (some "2023_01_B_A", "A"))) = [wFullRow1] :=
  ⟨by decide, (iso_top_passer_selects_first_max [wFullRow1, wFullRow2] "2023_01_B_A" "A"
      wFullRow1 (by decide)).1⟩

/-- C7: the value computation is exactly the fixed-coefficient linear formula
`-2.2*attempts + 3.7*completions + passing_yards/5 + 11.3*passing_tds
- 14.1*interceptions - 8*sacks - 1.1*carries + 0.6*rushing_yards
+ 15.9*rushing_tds` on every row, and on the stat line (completions 20,
attempts 30, passing_yards 250, passing_tds 2, interceptions 1, sacks 3,
carries 3, rushing_yards 10, rushing_tds 0) it returns exactly 45.2.
`pull_data` applies this one function at both grains: to every team row
(`team_VALUE`) and to every formatted player row (`player_VALUE`). -/
theorem calculate_raw_value_formula :
    (∀ s : Stats, calculate_raw_value s =
      -2.2 * s.attempts + 3.7 * s.completions + s.passing_yards / 5 +
      11.3 * s.passing_tds - 14.1 * s.interceptions - 8 * s.sacks -
      1.1 * s.carries + 0.6 * s.rushing_yards + 15.9 * s.rushing_tds) ∧
    calculate_raw_value wStats1 = 45.2 := by
  refine ⟨fun s => rfl, ?_⟩
  rw [calculate_raw_value, wStats1]
  norm_num

/-- C10: for every team-code string and either mapping variant, the
normalization returns the mapped canonical code when the input is a key of
that table and returns the input unchanged when it is absent (never
failing); the two variants are distinct tables. -/
theorem replaceTeam_normalizes :
    (∀ s v, player_file_repl.lookup s = some v → replaceTeam player_file_repl s = v) ∧
    (∀ s, player_file_repl.lookup s = none → replaceTeam player_file_repl s = s) ∧
    (∀ s v, games_file_repl.lookup s = some v → replaceTeam games_file_repl s = v) ∧
    (∀ s, games_file_repl.lookup s = none → replaceTeam games_file_repl s = s) ∧
    player_file_repl ≠ games_file_repl := by
  refine ⟨fun s v h => ?_, fun s h => ?_, fun s v h => ?_, fun s h => ?_, by decide⟩ <;>
    rw [replaceTeam, h]

/-- Witness for C10: `LV` maps to `OAK` on the schedule side, `STL` maps on
the schedule side only, and an unknown code passes through unchanged. -/
theorem replaceTeam_normalizes_witness :
    replaceTeam games_file_repl "LV" = "OAK" ∧
    replaceTeam games_file_repl "STL" = "LAR" ∧
    replaceTeam player_file_repl "STL" = "STL" ∧
    replaceTeam player_file_repl "KC" = "KC" :=
  ⟨replaceTeam_normalizes.2.2.1 "LV" "OAK" (by decide),
   replaceTeam_normalizes.2.2.1 "STL" "LAR" (by decide),
   replaceTeam_normalizes.2.1 "STL" (by decide),
   replaceTeam_normalizes.2.1 "KC" (by decide)⟩

/-- C6: every processed game row normalizes `home_team` and `away_team`
through the schedule-side mapping first and then rebuilds `game_id` as
`season + '_' + zero-padded-week + '_' + away + '_' + home` from the
normalized codes; the raw `game_id` column is ignored entirely (superseded),
and a raw home team `LV` contributes `OAK` to the reconstructed id. -/
theorem processGames_reconstructs_game_id :
    (∀ raws : List GameRawRow,
      (processGames raws).map (fun g => g.game_id) = raws.map fun g =>
        toString g.season ++ "_" ++ zfill 2 (toString g.week) ++ "_" ++
        replaceTeam games_file_repl g.away_team ++ "_" ++
        replaceTeam games_file_repl g.home_team) ∧
    (∀ raws : List GameRawRow,
      (processGames raws).map (fun g => g.home_team) =
        raws.map fun g => replaceTeam games_file_repl g.home_team) ∧
    (∀ (g : GameRawRow) (x : String),
      processGames [{ g with game_id := x }] = processGames [g]) ∧
    (processGames [wGameRawLV]).map (fun g => g.game_id) = ["2023_01_CHI_OAK"] := by
  refine ⟨fun raws => ?_, fun raws => ?_, fun g x => rfl, by decide⟩ <;>
    rw [processGames, List.map_map] <;> rfl

/-- C5: the draft-metadata backfill equals, row for row, the input table with
each of the four fields independently resolved as "primary value when
non-null, otherwise the fill value of the first backfill row with this
player_id" (first occurrence wins), every other column untouched; in
particular the output has exactly the rows of the input (same count, same
keys), and the concrete cases null+7 -> 7 and 3+9 -> 3 hold. -/
theorem add_missing_draft_data_spec (missing : List BackfillRow) (df : List MetaMergedRow) :
    add_missing_draft_data missing df = (df.map fun a =>
      { a with
        rookie_year := a.rookie_year.orElse fun _ =>
          (missing.find? fun b => decide (b.player_id = a.player_id)).bind
            fun b => b.rookie_year_fill,
        draft_number := a.draft_number.orElse fun _ =>
          (missing.find? fun b => decide (b.player_id = a.player_id)).bind
            fun b => b.draft_number_fill,
        entry_year := a.entry_year.orElse fun _ =>
          (missing.find? fun b => decide (b.player_id = a.player_id)).bind
            fun b => b.entry_year_fill,
        birth_date := a.birth_date.orElse fun _ =>
          (missing.find? fun b => decide (b.player_id = a.player_id)).bind
            fun b => b.birth_date_fill }) ∧
    (add_missing_draft_data missing df).length = df.length ∧
    (add_missing_draft_data [wBf7] [wBioNull]).map (fun a => a.draft_number) = [some 7] ∧
    (add_missing_draft_data [wBf9] [wBio3]).map (fun a => a.draft_number) = [some 3] := by
  have hmap : ∀ (missing : List BackfillRow) (df : List MetaMergedRow),
      add_missing_draft_data missing df = (df.map fun a =>
        { a with
          rookie_year := a.rookie_year.orElse fun _ =>
            (missing.find? fun b => decide (b.player_id = a.player_id)).bind
              fun b => b.rookie_year_fill,
          draft_number := a.draft_number.orElse fun _ =>
            (missing.find? fun b => decide (b.player_id = a.player_id)).bind
              fun b => b.draft_number_fill,
          entry_year := a.entry_year.orElse fun _ =>
            (missing.find? fun b => decide (b.player_id = a.player_id)).bind
              fun b => b.entry_year_fill,
          birth_date := a.birth_date.orElse fun _ =>
            (missing.find? fun b => decide (b.player_id = a.player_id)).bind
              fun b => b.birth_date_fill }) := by
    intro missing df
    rw [add_missing_draft_data,
      leftJoin_of_unique df (headPerGroup (fun b => b.player_id) missing)
        (fun a b => decide (b.player_id = a.player_id)) _
        (fun a => headPerGroup_filter_length_le_one (fun b => b.player_id) missing a.player_id)]
    have hfind : ∀ a : MetaMergedRow,
        ((headPerGroup (fun b => b.player_id) missing).filter
          fun b => decide (b.player_id = a.player_id)).head? =
        missing.find? fun b => decide (b.player_id = a.player_id) := by
      intro a
      rw [← find?_eq_head_filter,
        headPerGroup_find? (fun b => b.player_id) missing a.player_id]
    simp only [hfind]
  refine ⟨hmap missing df, ?_, ?_, ?_⟩
  · rw [hmap missing df, List.length_map]
  · rw [hmap [wBf7] [wBioNull]]; decide
  · rw [hmap [wBf9] [wBio3]]; decide

theorem add_missing_draft_data_length (missing : List BackfillRow)
    (df : List MetaMergedRow) :
    (add_missing_draft_data missing df).length = df.length := by
  rw [add_missing_draft_data]
  exact leftJoin_length_of_unique df (headPerGroup (fun b => b.player_id) missing) _ _
    (fun a => headPerGroup_filter_length_le_one (fun b => b.player_id) missing a.player_id)

theorem leftJoin_mem_of_no_match {α β γ : Type} (ls : List α) (rs : List β)
    (mtch : α → β → Bool) (mk : α → Option β → γ) (a : α) (ha : a ∈ ls)
    (hf : rs.filter (mtch a) = []) : mk a none ∈ leftJoin ls rs mtch mk := by
  unfold leftJoin
  refine List.mem_flatMap.mpr ⟨a, ha, ?_⟩
  rw [hf]
  exact List.mem_singleton_self _

/-- C3 (amended): the player-metadata merge always preserves the row count of
the stat table (its right side is deduplicated to one row per join key
before merging), and an unmatched row keeps all its columns with null bio
fields.  The game-data merge keeps every unmatched row (with null game
fields) and preserves the row count whenever the flattened schedule has at
most one row per `(season, week, team)`; with duplicate keys on the schedule
side it duplicates the matching player rows instead. -/
theorem merges_preserve_rowcount :
    (∀ (meta : List MetaRow) (missing : List BackfillRow) (df : List StatRow),
      ∃ out, retrieve_player_meta (some meta) (some missing) df = some out ∧
        out.length = df.length) ∧
    (∀ (df : List MetaMergedRow) (flat : List PerspRow),
      (∀ a : MetaMergedRow,
        (flat.filter fun p => decide (p.season = a.season) && decide (p.week = a.week) &&
          decide (p.team = a.team)).length ≤ 1) →
      (merge_game_flat df flat).length = df.length) ∧
    (∀ (df : List MetaMergedRow) (flat : List PerspRow) (a : MetaMergedRow), a ∈ df →
      (flat.filter fun p => decide (p.season = a.season) && decide (p.week = a.week) &&
        decide (p.team = a.team)) = [] →
      ({ toMetaMergedRow := a, gctx := none } : FullRow) ∈ merge_game_flat df flat) := by
  refine ⟨fun meta missing df => ⟨_, rfl, ?_⟩, fun df flat h => ?_, fun df flat a ha hf => ?_⟩
  · rw [add_missing_draft_data_length, leftJoin_length_of_unique df
      (headPerGroup (fun m => m.gsis_id) meta) _ _
      (fun a => headPerGroup_filter_length_le_one (fun m => m.gsis_id) meta a.player_id)]
  · rw [merge_game_flat]
    exact leftJoin_length_of_unique df flat _ _ h
  · rw [merge_game_flat]
    exact leftJoin_mem_of_no_match df flat _ _ a ha hf

/-- Counterexample to C3 as stated: a schedule listing the same game twice
gives two flattened rows with the key (2023, week 1, team A), so the game
merge of a single player row produces two rows, not one. -/
theorem game_merge_duplicates_rows :
    (merge_game_flat [wFullRow1.toMetaMergedRow]
      (flattenGames (processGames [wGameRaw1, wGameRaw1]))).length = 2 := by decide

/-- Witness for C3 (amended) at concrete inputs: a one-row schedule keeps the
row count at one, and with an empty schedule the player row survives with a
null game context. -/
theorem merges_preserve_rowcount_witness :
    (merge_game_flat [wFullRow1.toMetaMergedRow] [wPersp1]).length = 1 ∧
    ({ toMetaMergedRow := wFullRow1.toMetaMergedRow, gctx := none } : FullRow) ∈
      merge_game_flat [wFullRow1.toMetaMergedRow] [] :=
  ⟨merges_preserve_rowcount.2.1 [wFullRow1.toMetaMergedRow] [wPersp1]
      (fun a => by simpa using List.length_filter_le _ [wPersp1]),
   merges_preserve_rowcount.2.2 [wFullRow1.toMetaMergedRow] [] wFullRow1.toMetaMergedRow
      (List.mem_singleton_self _) rfl⟩

theorem headPerGroup_id_filter {K : Type} [DecidableEq K] (l : List K) (k : K) :
    (headPerGroup (fun x => x) l).filter (fun x => decide (x = k)) =
      (l.filter (fun x => decide (x = k))).take 1 :=
  headPerGroup_filter (fun x => x) l k

theorem take_one_filter_eq {α : Type} [DecidableEq α] (l : List α) (k : α) :
    (l.filter (fun x => decide (x = k))).take 1 = if k ∈ l then [k] else [] := by
  induction l with
  | nil => simp
  | cons a l ih =>
    by_cases ha : a = k
    · subst ha
      rw [List.filter_cons_of_pos (by simp)]
      simp [List.take]
    · rw [List.filter_cons_of_neg (by simp [ha]), ih]
      by_cases hk : k ∈ l
      · simp [hk, List.mem_cons]
      · have hka : ¬(k = a) := fun h => ha h.symm
        simp [hk, List.mem_cons, hka]

/-- C8: team aggregation produces, for each distinct five-column key
`(game_id, season, week, gameday, team)` realized by some player row,
exactly one output row, carrying that key (grouping field renamed to `team`)
and the column-wise sum of the nine stat columns over exactly the rows of
that group; keys realized by no row produce no output row. -/
theorem aggregate_team_stats_groups (df : List FullRow) (k : AggKey) :
    ((∃ r ∈ df, aggKey teamOf r = some k) →
      (aggregate_team_stats teamOf df).filter (fun t => decide (teamRowKey t = k)) =
        [{ game_id := k.game_id, season := k.season, week := k.week, gameday := k.gameday,
           team := k.team,
           stats := sumStats
             ((df.filter fun r => decide (aggKey teamOf r = some k)).map fun r => r.stats) }]) ∧
    ((¬∃ r ∈ df, aggKey teamOf r = some k) →
      (aggregate_team_stats teamOf df).filter (fun t => decide (teamRowKey t = k)) = []) := by
  have hmain : (aggregate_team_stats teamOf df).filter (fun t => decide (teamRowKey t = k)) =
      if k ∈ df.filterMap (aggKey teamOf) then
        [{ game_id := k.game_id, season := k.season, week := k.week, gameday := k.gameday,
           team := k.team,
           stats := sumStats
             ((df.filter fun r => decide (aggKey teamOf r = some k)).map fun r => r.stats) }]
      else [] := by
    rw [aggregate_team_stats, List.filter_map]
    have hpred : ((fun t => decide (teamRowKey t = k)) ∘ (fun k1 : AggKey =>
        ({ game_id := k1.game_id, season := k1.season, week := k1.week,
           gameday := k1.gameday, team := k1.team,
           stats := sumStats
             ((df.filter fun r => decide (aggKey teamOf r = some k1)).map
               fun r => r.stats) } : TeamRow))) = fun x : AggKey => decide (x = k) := rfl
    rw [hpred, headPerGroup_id_filter, take_one_filter_eq]
    by_cases hk : k ∈ df.filterMap (aggKey teamOf)
    · rw [if_pos hk, if_pos hk]
      rfl
    · rw [if_neg hk, if_neg hk, List.map_nil]
  constructor
  · intro hex
    rw [hmain, if_pos (List.mem_filterMap.mpr hex)]
  · intro hex
    rw [hmain, if_neg fun hmem => hex (List.mem_filterMap.mp hmem)]

/-- Witness for C8: the two witness rows share the key
`(2023_01_B_A, 2023, 1, 2023-09-10, A)` and yield one aggregated row whose
stats are the sum of both rows. -/
theorem aggregate_team_stats_groups_witness :
    (∃ r ∈ [wFullRow1, wFullRow2], aggKey teamOf r = some wKeyA) ∧
    (aggregate_team_stats teamOf [wFullRow1, wFullRow2]).filter
      (fun t => decide (teamRowKey t = wKeyA)) =
      [{ game_id := wKeyA.game_id, season := wKeyA.season, week := wKeyA.week,
         gameday := wKeyA.gameday, team := wKeyA.team,
         stats := sumStats
           (([wFullRow1, wFullRow2].filter
             fun r => decide (aggKey teamOf r = some wKeyA)).map fun r => r.stats) }] :=
  ⟨by decide, (aggregate_team_stats_groups [wFullRow1, wFullRow2] wKeyA).1 (by decide)⟩

theorem aggKey_none_of_gctx_none (teamField : FullRow → Option String) (r : FullRow)
    (hr : r.gctx = none) : aggKey teamField r = none := by
  rw [aggKey, hr]

theorem gctx_isSome_of_aggKey_some (r : FullRow) (k : AggKey)
    (h : aggKey teamOf r = some k) : r.gctx.isSome = true := by
  cases hc : r.gctx with
  | none => rw [aggKey_none_of_gctx_none teamOf r hc] at h; exact absurd h (by simp)
  | some g => rfl

/-- C9: a player row whose game merge found no match (null game context) is
excluded from both output levels: it never appears in the top-passer output,
and the team aggregation of any table equals the aggregation of the table
with all such rows removed (they belong to no group). -/
theorem null_game_rows_excluded (df : List FullRow) :
    (∀ r : FullRow, r.gctx = none → r ∉ iso_top_passer df) ∧
    aggregate_team_stats teamOf df =
      aggregate_team_stats teamOf (df.filter fun r => r.gctx.isSome) := by
  constructor
  · intro r hr hmem
    have h1 := mem_of_mem_headPerGroup isoKey _ r hmem
    have h2 : (gid? r).isSome = true := (List.mem_filter.mp h1).2
    rw [gid?, hr] at h2
    simp at h2
  · have hkeys : df.filterMap (aggKey teamOf) =
        (df.filter fun r => r.gctx.isSome).filterMap (aggKey teamOf) := by
      induction df with
      | nil => rfl
      | cons r l ih =>
        by_cases hg : r.gctx.isSome = true
        · rw [@List.filter_cons_of_pos _ (fun r : FullRow => r.gctx.isSome) r l hg,
            List.filterMap_cons, List.filterMap_cons, ih]
        · have hnone : r.gctx = none := by
            cases hc : r.gctx
            · rfl
            · rw [hc] at hg; simp at hg
          rw [@List.filter_cons_of_neg _ (fun r : FullRow => r.gctx.isSome) r l hg,
            List.filterMap_cons, aggKey_none_of_gctx_none teamOf r hnone, ih]
    have hfilter : ∀ k : AggKey,
        (df.filter fun r => decide (aggKey teamOf r = some k)) =
          ((df.filter fun r => r.gctx.isSome).filter
            fun r => decide (aggKey teamOf r = some k)) := by
      intro k
      rw [List.filter_filter]
      apply List.filter_congr
      intro r _
      by_cases hp : aggKey teamOf r = some k
      · simp [hp, gctx_isSome_of_aggKey_some r k hp]
      · simp [hp]
    rw [aggregate_team_stats, aggregate_team_stats, ← hkeys]
    apply List.map_congr_left
    intro k _
    rw [← hfilter k]

/-- Witness for C9: the row with a null game context is absent from the
top-passer output of a concrete two-row table. -/
theorem null_game_rows_excluded_witness :
    wFullRowNull ∉ iso_top_passer [wFullRow1, wFullRowNull] :=
  (null_game_rows_excluded [wFullRow1, wFullRowNull]).1 wFullRowNull rfl

/-- C1: concrete failing run evaluated on the code.  With the player-stats
and schedule fetches succeeding but the player-metadata stage failing (its
source unreachable, so the stage hands an absent frame along), `pull_data`
does not stop: `add_game_data` still assigns `self.games` from the fetched
schedule before its own merge fails, and the subsequent
`aggregate_team_stats(None)` call raises an uncaught exception.  The run
therefore both raises and mutates stored state, against the claim. -/
theorem pull_data_meta_failure_raises :
    pull_data (some [wRawStat1]) none (some []) (some [wGameRaw1]) initState =
      Except.error ⟨none, none, some (processGames [wGameRaw1])⟩ ∧
    ranClean (pull_data (some [wRawStat1]) none (some []) (some [wGameRaw1]) initState) =
      false ∧
    (stateOf (pull_data (some [wRawStat1]) none (some []) (some [wGameRaw1]) initState)).games ≠
      initState.games := by
  have hrun : pull_data (some [wRawStat1]) none (some []) (some [wGameRaw1]) initState =
      Except.error ⟨none, none, some (processGames [wGameRaw1])⟩ := rfl
  refine ⟨hrun, by rw [hrun]; rfl, ?_⟩
  rw [hrun]
  simp [stateOf, initState]

theorem pull_data_success_state (stats : List RawStatRow) (meta : List MetaRow)
    (missing : List BackfillRow) (games : List GameRawRow) (st : LoaderState) :
    ∃ m : List ModelRow,
      pull_data (some stats) (some meta) (some missing) (some games) st =
        Except.ok ⟨some m, st.games_df, some (processGames games)⟩ :=
  ⟨_, rfl⟩

/-- C2 (amended): after every fully successful run the orchestrator returns
without raising and holds the player-level model table (`model_df`) and the
raw game table (`games`) as process state, with the `games_df` slot left
untouched; the team-level table is not retained — it exists only as the
local `df_team`, whose `team_VALUE` column is joined into the player-level
table. -/
theorem pull_data_success_holds_outputs (stats : List RawStatRow) (meta : List MetaRow)
    (missing : List BackfillRow) (games : List GameRawRow) (st : LoaderState) :
    ∃ m : List ModelRow,
      pull_data (some stats) (some meta) (some missing) (some games) st =
        Except.ok ⟨some m, st.games_df, some (processGames games)⟩ :=
  ⟨_, rfl⟩

/-- Counterexample to C2 as stated: on a fully successful concrete run the
final state carries the player model table and the raw game table, but its
only other output slot, `games_df`, still holds nothing — no field of the
orchestrator state holds the team-level table. -/
theorem pull_data_success_drops_team_table :
    ranClean (pull_data (some [wRawStat1]) (some []) (some []) (some [wGameRaw1])
      initState) = true ∧
    (stateOf (pull_data (some [wRawStat1]) (some []) (some []) (some [wGameRaw1])
      initState)).games_df = none ∧
    (stateOf (pull_data (some [wRawStat1]) (some []) (some []) (some [wGameRaw1])
      initState)).model_df.isSome = true ∧
    (stateOf (pull_data (some [wRawStat1]) (some []) (some []) (some [wGameRaw1])
      initState)).games = some (processGames [wGameRaw1]) := by
  obtain ⟨m, hm⟩ := pull_data_success_state [wRawStat1] [] [] [wGameRaw1] initState
  rw [hm]
  exact ⟨rfl, rfl, rfl, rfl⟩
